import Mathlib

/-!
Verification development for the DLMM position viewer's core numeric logic:
weighted-average price bookkeeping, balance snapshots and their aggregation,
bin pricing, event normalization, claimed-fee pricing with fallback, interval
selection for historical price series, ROI reporting, and the indexer fetch
fallback.

Decimal.js values are modelled as exact rationals; `DecVal = Option ℚ` is used
where a computation can produce a non-finite result (NaN or ±Infinity, e.g. on
division by zero), with `none` standing for any non-finite value.  Operations
propagate non-finiteness, matching Decimal.js behaviour on the value ranges the
program reaches (non-finite operands never cancel back to a finite result in
the expressions modelled here).
-/

namespace LP4Fun

/-- A Decimal.js value: `some q` is the finite value `q`, `none` is non-finite
(NaN or ±Infinity). -/
abbrev DecVal := Option ℚ

/-- Decimal.js `plus`: finite addition, non-finiteness propagates. -/
def dAdd : DecVal → DecVal → DecVal
  | some a, some b => some (a + b)
  | _, _ => none

/-- Decimal.js `minus`. -/
def dSub : DecVal → DecVal → DecVal
  | some a, some b => some (a - b)
  | _, _ => none

/-- Decimal.js `mul`. -/
def dMul : DecVal → DecVal → DecVal
  | some a, some b => some (a * b)
  | _, _ => none

/-- Decimal.js `div`: division by zero yields a non-finite value
(`0/0 = NaN`, `x/0 = ±Infinity`). -/
def dDiv : DecVal → DecVal → DecVal
  | some a, some b => if b = 0 then none else some (a / b)
  | _, _ => none

/-- `calculateWeightedPrice` from the on-chain pipeline: short-circuits to the
current price when the added value is zero, otherwise combines the two prices
by value weights. -/
def calculateWeightedPrice (currentPrice currentValue newPrice addedValue : DecVal) : DecVal :=
  if addedValue = some 0 then
    currentPrice
  else
    let totalValue := dAdd currentValue addedValue
    let currentWeight := dDiv currentValue totalValue
    let newWeight := dDiv addedValue totalValue
    dAdd (dMul currentPrice currentWeight) (dMul newPrice newWeight)

/-- `updateWeightedPrice` from `app/utils/solana.ts`: the same weighted
combination, with no zero-added-value short-circuit. -/
def updateWeightedPrice (currentPrice currentTotalValue newPrice newValue : DecVal) : DecVal :=
  let totalValue := dAdd currentTotalValue newValue
  dAdd (dMul currentPrice (dDiv currentTotalValue totalValue))
       (dMul newPrice (dDiv newValue totalValue))

/-- A `BalanceInfo` snapshot (from `app/types/index.ts`): token balances, the
exchange rate at snapshot time, the two derived totals, the post-hoc reference
price, and the block time. -/
structure BalanceInfo where
  tokenXBalance : ℚ
  tokenYBalance : ℚ
  exchangeRate : ℚ
  totalValueInTokenY : ℚ
  totalValueInTokenX : ℚ
  tokenYSOLPrice : ℚ
  blockTime : ℤ
deriving DecidableEq

/-- The `BalanceInfo` constructor: derives `totalValueInTokenY` and
`totalValueInTokenX` (the latter guarded when the rate is zero) and
initializes `tokenYSOLPrice` to `0`. -/
def BalanceInfo.make (tokenXBalance tokenYBalance exchangeRate : ℚ) (blockTime : ℤ) : BalanceInfo :=
  { tokenXBalance := tokenXBalance
    tokenYBalance := tokenYBalance
    exchangeRate := exchangeRate
    totalValueInTokenY := exchangeRate * tokenXBalance + tokenYBalance
    totalValueInTokenX := if exchangeRate = 0 then 0 else tokenYBalance / exchangeRate + tokenXBalance
    tokenYSOLPrice := 0
    blockTime := blockTime }

/-- `BalanceInfo.setTokenYSOLPrice`: writes the reference-price field. -/
def BalanceInfo.setTokenYSOLPrice (b : BalanceInfo) (price : ℚ) : BalanceInfo :=
  { b with tokenYSOLPrice := price }

/-- `BalanceInfo.getSOLValue`. -/
def BalanceInfo.getSOLValue (b : BalanceInfo) : ℚ :=
  b.tokenYSOLPrice * b.totalValueInTokenY

/-- `BalanceInfo.zero`. -/
def BalanceInfo.zero : BalanceInfo :=
  BalanceInfo.make 0 0 0 0

/-- A `PositionBalanceInfo`: the snapshots of one accounting bucket plus the
pair's mints. -/
structure PositionBalanceInfo where
  balances : List BalanceInfo
  tokenXMint : String
  tokenYMint : String

/-- `PositionBalanceInfo.add`: appends a snapshot. -/
def PositionBalanceInfo.add (p : PositionBalanceInfo) (b : BalanceInfo) : PositionBalanceInfo :=
  { p with balances := p.balances ++ [b] }

/-- `PositionBalanceInfo.getWeightedExchangeRate`: the loop accumulating
`totalValue` and `weightedSum` over the snapshots, with the empty-collection
and zero-total guards. -/
def PositionBalanceInfo.getWeightedExchangeRate (p : PositionBalanceInfo) : ℚ :=
  if p.balances = [] then 0
  else
    let acc := p.balances.foldl
      (fun (acc : ℚ × ℚ) b =>
        (acc.1 + b.totalValueInTokenY, acc.2 + b.exchangeRate * b.totalValueInTokenY))
      (0, 0)
    if acc.1 = 0 then 0 else acc.2 / acc.1

/-- The two-snapshot collection of the weighted-average test scenario:
rate 2 with value 10, then rate 4 with value 10. -/
def examplePositionBalance : PositionBalanceInfo :=
  ⟨[BalanceInfo.make 0 10 2 1, BalanceInfo.make 0 10 4 2], "tokenX", "tokenY"⟩

/-- `BASIS_POINT_MAX` from `app/utils/dlmm.ts`. -/
def BASIS_POINT_MAX : ℕ := 10000

/-- `getPriceFromBinId` from `app/utils/dlmm.ts`: the geometric bin-price
formula scaled by the decimal difference of the two tokens. -/
def getPriceFromBinId (binId : ℤ) (binStep : ℕ) (tokenXDecimal tokenYDecimal : ℤ) : ℚ :=
  let binStepNum : ℚ := (binStep : ℚ) / (BASIS_POINT_MAX : ℚ)
  let base : ℚ := 1 + binStepNum
  base ^ binId * (10 : ℚ) ^ (tokenXDecimal - tokenYDecimal)

/-- The closed set of canonical operation kinds. -/
inductive EventType
  | addLiquidity
  | removeLiquidity
  | claimFee
  | positionClose
  | positionCreate
deriving DecidableEq

/-- A decoded on-chain program event as consumed by `parseEvent`: the kind
name, the amount pair of add/remove events, the fee fields of claim events,
and the active bin id. -/
structure RawDecodedEvent where
  name : EventType
  amounts : ℚ × ℚ
  feeX : ℚ
  feeY : ℚ
  activeBinId : ℤ

/-- A canonical `EventInfo` record (addresses and signature omitted: they are
opaque strings that no claim constrains). -/
structure EventInfo where
  operation : EventType
  blockTime : ℤ
  tokenXChange : ℚ
  tokenYChange : ℚ
  activeBin : Option ℤ
deriving DecidableEq

/-- `parseEvent` from `app/utils/dlmm.ts` (on-chain path): maps a decoded
event to a canonical record; add/remove events carry the amount pair as
reported, claim events carry the fee fields, create/close carry zero changes.
The caller assigns `blockTime` afterwards, so it is `0` here. -/
def parseEvent (event : RawDecodedEvent) : EventInfo :=
  let baseEvent : EventInfo :=
    { operation := event.name, blockTime := 0,
      tokenXChange := 0, tokenYChange := 0, activeBin := none }
  match event.name with
  | .addLiquidity =>
      { baseEvent with
        tokenXChange := event.amounts.1, tokenYChange := event.amounts.2,
        activeBin := some event.activeBinId }
  | .removeLiquidity =>
      { baseEvent with
        tokenXChange := event.amounts.1, tokenYChange := event.amounts.2,
        activeBin := some event.activeBinId }
  | .claimFee =>
      { baseEvent with tokenXChange := event.feeX, tokenYChange := event.feeY }
  | .positionClose => baseEvent
  | .positionCreate => baseEvent

/-- A normalized Meteora deposit/withdraw record (`MeteoraWithdraw` extends
`MeteoraDeposit` in the source); fields are optional to mirror the `?? 0` and
`?? fallback` guards at the use sites (the indexer payload may omit them at
runtime). -/
structure MeteoraDeposit where
  activeBinId : Option ℤ
  tokenXAmount : Option ℚ
  tokenYAmount : Option ℚ
  tokenXUsdAmount : Option ℚ
  tokenYUsdAmount : Option ℚ
  price : Option ℚ
  onchainTimestamp : ℤ

/-- A normalized Meteora claim-fee record; the bin id is optional because the
claim-fee payload usually lacks it and the code reads it through an untyped
access with a fallback. -/
structure MeteoraClaimFee where
  activeBinId : Option ℤ
  feeXAmount : Option ℚ
  feeYAmount : Option ℚ
  feeXUsdAmount : Option ℚ
  feeYUsdAmount : Option ℚ
  onchainTimestamp : ℤ

/-- `buildEventsFromMeteoraOps` from `app/utils/dlmm.ts` (Meteora indexer
path): deposits become `addLiquidity` events with the amounts as reported,
withdrawals become `removeLiquidity` events with negated amounts, claim fees
become `claimFee` events with the fee amounts; missing bin ids fall back to
the pool's active bin; the result is sorted by block time. -/
def buildEventsFromMeteoraOps (deposits withdrawals : List MeteoraDeposit)
    (claimFees : List MeteoraClaimFee) (fallbackActiveBin : ℤ) : List EventInfo :=
  let evts : List EventInfo :=
    (deposits.map fun d =>
      { operation := .addLiquidity, blockTime := d.onchainTimestamp,
        tokenXChange := d.tokenXAmount.getD 0, tokenYChange := d.tokenYAmount.getD 0,
        activeBin := some (d.activeBinId.getD fallbackActiveBin) })
    ++ (withdrawals.map fun w =>
      { operation := .removeLiquidity, blockTime := w.onchainTimestamp,
        tokenXChange := -(w.tokenXAmount.getD 0), tokenYChange := -(w.tokenYAmount.getD 0),
        activeBin := some (w.activeBinId.getD fallbackActiveBin) })
    ++ (claimFees.map fun c =>
      { operation := .claimFee, blockTime := c.onchainTimestamp,
        tokenXChange := c.feeXAmount.getD 0, tokenYChange := c.feeYAmount.getD 0,
        activeBin := some (c.activeBinId.getD fallbackActiveBin) })
  evts.mergeSort fun a b => a.blockTime ≤ b.blockTime

/-- A raw withdrawal record reporting positive magnitudes 5 and 2. -/
def exampleWithdrawal : MeteoraDeposit :=
  ⟨none, some 5, some 2, none, none, none, 11⟩

/-- The canonical event `buildEventsFromMeteoraOps` emits for
`exampleWithdrawal` with fallback bin 3. -/
def exampleWithdrawEvent : EventInfo :=
  ⟨.removeLiquidity, 11, -5, -2, some 3⟩

/-- A decoded on-chain `RemoveLiquidity` event whose source reports the
positive magnitudes 5 and 2. -/
def exampleRawRemoveEvent : RawDecodedEvent :=
  ⟨.removeLiquidity, (5, 2), 0, 0, 7⟩

/-- The closed ladder of chart resolutions. -/
inductive TimeInterval
  | i1m
  | i3m
  | i5m
  | i15m
  | i30m
  | i1H
  | i2H
  | i4H
  | i6H
  | i8H
  | i12H
  | i1D
  | i3D
  | i1W
  | i1M
deriving DecidableEq

/-- `MAX_DATA_POINTS` from `app/utils/birdeye.ts`. -/
def MAX_DATA_POINTS : ℕ := 999

/-- `SECONDS_PER_MINUTE` from `app/utils/birdeye.ts`. -/
def SECONDS_PER_MINUTE : ℕ := 60

/-- The `availableIntervals` ladder: duration in minutes paired with the
interval, ascending. -/
def availableIntervals : List (ℕ × TimeInterval) :=
  [(1, .i1m), (3, .i3m), (5, .i5m), (15, .i15m), (30, .i30m),
   (60, .i1H), (120, .i2H), (240, .i4H), (360, .i6H), (480, .i8H), (720, .i12H),
   (1440, .i1D), (4320, .i3D), (10080, .i1W), (43200, .i1M)]

/-- The duration of an interval in minutes, as listed in the ladder. -/
def intervalMinutes : TimeInterval → ℕ
  | .i1m => 1
  | .i3m => 3
  | .i5m => 5
  | .i15m => 15
  | .i30m => 30
  | .i1H => 60
  | .i2H => 120
  | .i4H => 240
  | .i6H => 360
  | .i8H => 480
  | .i12H => 720
  | .i1D => 1440
  | .i3D => 4320
  | .i1W => 10080
  | .i1M => 43200

/-- `convertIntervalToSeconds` from `app/utils/birdeye.ts` (the month case is
the source's explicit 30-day approximation). -/
def convertIntervalToSeconds : TimeInterval → ℤ
  | .i1m => 1 * 60
  | .i3m => 3 * 60
  | .i5m => 5 * 60
  | .i15m => 15 * 60
  | .i30m => 30 * 60
  | .i1H => 1 * 3600
  | .i2H => 2 * 3600
  | .i4H => 4 * 3600
  | .i6H => 6 * 3600
  | .i8H => 8 * 3600
  | .i12H => 12 * 3600
  | .i1D => 1 * 86400
  | .i3D => 3 * 86400
  | .i1W => 7 * 86400
  | .i1M => 30 * 86400

/-- The target interval length in minutes computed by
`determineOptimalTimeInterval`:
`ceil(((toBlockTime - fromBlockTime) / 60) / 999)`. -/
def targetIntervalMinutes (fromBlockTime toBlockTime : ℤ) : ℤ :=
  let totalDurationMinutes : ℚ :=
    ((toBlockTime - fromBlockTime : ℤ) : ℚ) / (SECONDS_PER_MINUTE : ℚ)
  ⌈totalDurationMinutes / (MAX_DATA_POINTS : ℚ)⌉

/-- The ladder scan of `determineOptimalTimeInterval`, over the target
minutes: the first entry whose duration reaches the target, else `1M`. -/
def optimalFromTarget (t : ℤ) : TimeInterval :=
  match availableIntervals.find? (fun p => (p.1 : ℤ) ≥ t) with
  | some p => p.2
  | none => TimeInterval.i1M

/-- `determineOptimalTimeInterval` from `app/utils/birdeye.ts`: the loop
returns the first ladder entry whose duration reaches the target, else the
coarsest interval `1M`. -/
def determineOptimalTimeInterval (fromBlockTime toBlockTime : ℤ) : TimeInterval :=
  optimalFromTarget (targetIntervalMinutes fromBlockTime toBlockTime)

/-- Modelled from the claim's wording, for comparison: the coarsest
(longest-duration) qualifying ladder entry, over the target minutes. -/
def coarsestFromTarget (t : ℤ) : TimeInterval :=
  match (availableIntervals.filter (fun p => (p.1 : ℤ) ≥ t)).getLast? with
  | some p => p.2
  | none => TimeInterval.i1M

/-- Modelled from the claim's wording, for comparison: the coarsest
(longest-duration) ladder interval whose duration reaches the target, else
`1M`. -/
def coarsestQualifyingInterval (fromBlockTime toBlockTime : ℤ) : TimeInterval :=
  coarsestFromTarget (targetIntervalMinutes fromBlockTime toBlockTime)

/-- `determineIntervalIndex` from `app/utils/birdeye.ts`: the floor of the
time offset divided by the interval duration, clamped to be non-negative. -/
def determineIntervalIndex (initBlockTime : ℤ) (interval : TimeInterval)
    (targetBlockTime : ℤ) : ℤ :=
  let intervalSeconds := convertIntervalToSeconds interval
  let index := ⌊((targetBlockTime - initBlockTime : ℤ) : ℚ) / (intervalSeconds : ℚ)⌋
  max 0 index

/-- One point of a historical price series. -/
structure HistoricalPriceItem where
  unixTime : ℤ
  value : ℚ

/-- `updateBalanceWithEvent` from `app/utils/dlmm.ts`: appends a snapshot
built from the event's changes, the given price, and the event time. -/
def updateBalanceWithEvent (balance : PositionBalanceInfo) (event : EventInfo)
    (price : ℚ) : PositionBalanceInfo :=
  balance.add (BalanceInfo.make event.tokenXChange event.tokenYChange price event.blockTime)

/-- JavaScript array indexing with a possibly negative integer index:
out-of-range and negative indices yield `undefined`. -/
def jsListGet (items : List HistoricalPriceItem) (i : ℤ) : Option HistoricalPriceItem :=
  if 0 ≤ i then items[i.toNat]? else none

/-- `calculateClaimedFees` from `app/utils/dlmm.ts`, with the outcome of the
awaited historical-series fetch passed explicitly: an `ok` result is the
series' item list, an `error` is a thrown fetch error, caught by the
function's fallback branch.  Claim-fee events are filtered, and when none
exist the empty bucket is returned before any fetch is used; on a fetch
error every claim event is priced uniformly with the current oracle price. -/
def calculateClaimedFees (events : List EventInfo) (tokenInfoPrice : ℚ)
    (tokenXMint tokenYMint : String)
    (historicalPrices : Except Unit (List HistoricalPriceItem)) : PositionBalanceInfo :=
  let totalClaimedFees : PositionBalanceInfo := ⟨[], tokenXMint, tokenYMint⟩
  let claimFeeEvents := events.filter (fun tx => tx.operation = EventType.claimFee)
  if h : claimFeeEvents = [] then
    totalClaimedFees
  else
    let fromBlockTime := (claimFeeEvents.head h).blockTime
    let toBlockTime := (claimFeeEvents.getLast h).blockTime
    let optimalTimeInterval := determineOptimalTimeInterval fromBlockTime toBlockTime
    match historicalPrices with
    | .ok items =>
        let maxAvailableIndex : ℤ := (items.length : ℤ) - 1
        claimFeeEvents.foldl
          (fun acc event =>
            let priceIndex :=
              min (determineIntervalIndex fromBlockTime optimalTimeInterval event.blockTime)
                maxAvailableIndex
            match jsListGet items priceIndex with
            | some price => updateBalanceWithEvent acc event price.value
            | none => acc)
          totalClaimedFees
    | .error _ =>
        claimFeeEvents.foldl
          (fun acc event => updateBalanceWithEvent acc event tokenInfoPrice)
          totalClaimedFees

/-- Per-position `getROI` from `PositionStatus.tsx`: guarded to report `0`
when the invested amount is zero, otherwise
`(totalValue / invested - 1) * 100` over the five USD bucket totals. -/
def getROI (totalDepositsUSD totalCurrentUSD totalUnclaimedFeesUSD
    totalWithdrawalsUSD totalClaimedFeesUSD : ℚ) : ℚ :=
  if totalDepositsUSD = 0 then 0
  else
    ((totalCurrentUSD + totalUnclaimedFeesUSD + totalWithdrawalsUSD + totalClaimedFeesUSD)
        / totalDepositsUSD - 1) * 100

/-- The rolled-up metrics produced by `calculateMetrics` (start date omitted:
no claim constrains it here). -/
structure MetricsResult where
  totalInvested : ℚ
  currentValue : ℚ
  totalWithdrawn : ℚ

/-- The rolled-up ROI displayed by `renderSummary`:
`(currentValue + totalWithdrawn - totalInvested) / totalInvested * 100`,
computed with no zero-invested guard. -/
def renderSummaryROI (m : MetricsResult) : DecVal :=
  dMul
    (dDiv (dSub (dAdd (some m.currentValue) (some m.totalWithdrawn)) (some m.totalInvested))
      (some m.totalInvested))
    (some 100)

/-- The per-bucket update loop of `processPositionsWithPrices`: every snapshot
whose block time equals the resolved timestamp receives the conversion rate
via `setTokenYSOLPrice`; all other snapshots are untouched. -/
def applyPriceToBalances (blockTime : ℤ) (price : ℚ)
    (balances : List BalanceInfo) : List BalanceInfo :=
  balances.map (fun b => if b.blockTime = blockTime then b.setTokenYSOLPrice price else b)

/-- An HTTP response as `fetchPositionOperations` consumes it: the `ok` flag
and the parsed JSON body, `some items` when the body is an array and `none`
when it is valid JSON of any other shape. -/
structure HttpResponse (α : Type) where
  ok : Bool
  body : Option (List α)

/-- `parseArray` from `app/utils/meteoraApi.ts`: a non-OK response or a
non-array body yields the empty list. -/
def parseArray {α : Type} (res : HttpResponse α) : List α :=
  if res.ok then
    match res.body with
    | some items => items
    | none => []
  else []

/-- A raw Meteora deposit/withdraw record (string-or-number amounts parsed to
rationals; `null`/`undefined` as `none`, mirrored by the `?? 0` in
`toDec`). -/
structure MeteoraDepositRaw where
  activeBinId : ℤ
  tokenXAmount : Option ℚ
  tokenYAmount : Option ℚ
  tokenXUsdAmount : Option ℚ
  tokenYUsdAmount : Option ℚ
  price : Option ℚ
  onchainTimestamp : ℤ

/-- A raw Meteora claim-fee record. -/
structure MeteoraClaimFeeRaw where
  feeXAmount : Option ℚ
  feeYAmount : Option ℚ
  feeXUsdAmount : Option ℚ
  feeYUsdAmount : Option ℚ
  onchainTimestamp : ℤ

/-- `toDec` from `app/utils/meteoraApi.ts`: missing values become `0`. -/
def toDec (v : Option ℚ) : ℚ := v.getD 0

/-- `scale` from `app/utils/meteoraApi.ts`: raw integer amounts scaled down
by the token's decimals. -/
def scale (v : Option ℚ) (decimals : ℕ) : ℚ := toDec v / 10 ^ decimals

/-- `normalizeDeposit` (also used as `normalizeWithdraw`). -/
def normalizeDeposit (r : MeteoraDepositRaw) (tokenXDecimals tokenYDecimals : ℕ) : MeteoraDeposit :=
  { activeBinId := some r.activeBinId
    tokenXAmount := some (scale r.tokenXAmount tokenXDecimals)
    tokenYAmount := some (scale r.tokenYAmount tokenYDecimals)
    tokenXUsdAmount := some (toDec r.tokenXUsdAmount)
    tokenYUsdAmount := some (toDec r.tokenYUsdAmount)
    price := some (toDec r.price)
    onchainTimestamp := r.onchainTimestamp }

/-- `normalizeClaimFee`. -/
def normalizeClaimFee (r : MeteoraClaimFeeRaw) (tokenXDecimals tokenYDecimals : ℕ) : MeteoraClaimFee :=
  { activeBinId := none
    feeXAmount := some (scale r.feeXAmount tokenXDecimals)
    feeYAmount := some (scale r.feeYAmount tokenYDecimals)
    feeXUsdAmount := some (toDec r.feeXUsdAmount)
    feeYUsdAmount := some (toDec r.feeYUsdAmount)
    onchainTimestamp := r.onchainTimestamp }

/-- `fetchPositionOperations` from `app/utils/meteoraApi.ts`, with the joint
outcome of the three fetches passed explicitly: an `error` is any fetch or
JSON-parse rejection, caught by the function's outer handler, which returns
three empty lists; an `ok` carries the three responses, each parsed with
`parseArray` and normalized. -/
def fetchPositionOperations (tokenXDecimals tokenYDecimals : ℕ)
    (responses : Except Unit
      (HttpResponse MeteoraDepositRaw × HttpResponse MeteoraDepositRaw ×
        HttpResponse MeteoraClaimFeeRaw)) :
    List MeteoraDeposit × List MeteoraDeposit × List MeteoraClaimFee :=
  match responses with
  | .error _ => ([], [], [])
  | .ok (depRes, witRes, feeRes) =>
      ((parseArray depRes).map (fun r => normalizeDeposit r tokenXDecimals tokenYDecimals),
       (parseArray witRes).map (fun r => normalizeDeposit r tokenXDecimals tokenYDecimals),
       (parseArray feeRes).map (fun r => normalizeClaimFee r tokenXDecimals tokenYDecimals))

end LP4Fun

namespace LP4Fun

/-- C1 counterexample: `updateWeightedPrice` with a zero accumulated value and a
zero added value divides by the zero total, producing a non-finite result
instead of the unchanged old average `0`. -/
theorem updateWeightedPrice_zero_zero_not_old_avg :
    updateWeightedPrice (some 0) (some 0) (some 5) (some 0) = none ∧
    updateWeightedPrice (some 0) (some 0) (some 5) (some 0) ≠ some 0 := by
  constructor
  · simp [updateWeightedPrice, dAdd, dMul, dDiv]
  · intro h
    simp [updateWeightedPrice, dAdd, dMul, dDiv] at h

/-- C1 (amended): `calculateWeightedPrice` returns the old average unchanged
when the added value is zero and the value-weighted combination whenever the
accumulated total is nonzero; `updateWeightedPrice` computes the same
combination when the total is nonzero but, lacking the short-circuit, yields a
non-finite value whenever the accumulated total is zero. -/
theorem weightedPrice_update_law (p v np av : ℚ) :
    (av = 0 → calculateWeightedPrice (some p) (some v) (some np) (some av) = some p) ∧
    (v + av ≠ 0 → calculateWeightedPrice (some p) (some v) (some np) (some av)
        = some (p * (v / (v + av)) + np * (av / (v + av)))) ∧
    (v + av ≠ 0 → updateWeightedPrice (some p) (some v) (some np) (some av)
        = some (p * (v / (v + av)) + np * (av / (v + av)))) ∧
    (v + av = 0 → updateWeightedPrice (some p) (some v) (some np) (some av) = none) := by
  refine ⟨?_, ?_, ?_, ?_⟩
  · intro h
    simp [calculateWeightedPrice, h]
  · intro h
    by_cases hav : av = 0
    · subst hav
      simp only [add_zero] at h
      simp [calculateWeightedPrice, div_self h]
    · simp [calculateWeightedPrice, hav, dAdd, dDiv, dMul, h]
  · intro h
    simp [updateWeightedPrice, dAdd, dDiv, dMul, h]
  · intro h
    simp [updateWeightedPrice, dAdd, dDiv, dMul, h]

/-- C1 witness: a concrete weighted update and a concrete zero-total failure. -/
theorem weightedPrice_update_law_witness :
    calculateWeightedPrice (some 2) (some 3) (some 4) (some 1) = some (5/2) ∧
    updateWeightedPrice (some 7) (some 0) (some 9) (some 0) = none := by
  constructor
  · have h := (weightedPrice_update_law 2 3 4 1).2.1 (by norm_num)
    rw [h]
    norm_num
  · exact (weightedPrice_update_law 7 0 9 0).2.2.2 (by norm_num)

/-- The weighted-rate accumulation loop computes the pair of sums. -/
theorem foldl_weighted_pair (l : List BalanceInfo) (c : ℚ × ℚ) :
    l.foldl
      (fun (acc : ℚ × ℚ) bal =>
        (acc.1 + bal.totalValueInTokenY, acc.2 + bal.exchangeRate * bal.totalValueInTokenY))
      c
    = (c.1 + (l.map fun bal => bal.totalValueInTokenY).sum,
       c.2 + (l.map fun bal => bal.exchangeRate * bal.totalValueInTokenY).sum) := by
  induction l generalizing c with
  | nil => simp
  | cons hd tl ih => simp [ih, add_assoc]

/-- C2: the weighted-average exchange rate equals the value-weighted sum of the
snapshot rates divided by the summed value, and is zero for an empty collection
or a zero summed value. -/
theorem getWeightedExchangeRate_spec (p : PositionBalanceInfo) :
    (p.balances = [] → p.getWeightedExchangeRate = 0) ∧
    ((p.balances.map fun b => b.totalValueInTokenY).sum = 0 →
      p.getWeightedExchangeRate = 0) ∧
    ((p.balances.map fun b => b.totalValueInTokenY).sum ≠ 0 →
      p.getWeightedExchangeRate
        = (p.balances.map fun b => b.exchangeRate * b.totalValueInTokenY).sum
          / (p.balances.map fun b => b.totalValueInTokenY).sum) := by
  refine ⟨?_, ?_, ?_⟩
  · intro h
    simp [PositionBalanceInfo.getWeightedExchangeRate, h]
  · intro h
    by_cases hnil : p.balances = []
    · simp [PositionBalanceInfo.getWeightedExchangeRate, hnil]
    · simp [PositionBalanceInfo.getWeightedExchangeRate, hnil, foldl_weighted_pair, h]
  · intro h
    have hnil : p.balances ≠ [] := by
      intro hn
      exact h (by simp [hn])
    simp [PositionBalanceInfo.getWeightedExchangeRate, hnil, foldl_weighted_pair, h]

/-- C2 witness: the scenario collection (rate 2, value 10) then (rate 4,
value 10) has summed value 20 and weighted-average rate 3. -/
theorem getWeightedExchangeRate_spec_witness :
    (examplePositionBalance.balances.map fun b => b.totalValueInTokenY).sum = 20 ∧
    examplePositionBalance.getWeightedExchangeRate = 3 := by
  have hsum : (examplePositionBalance.balances.map fun b => b.totalValueInTokenY).sum = 20 := by
    norm_num [examplePositionBalance, BalanceInfo.make]
  refine ⟨hsum, ?_⟩
  have h := (getWeightedExchangeRate_spec examplePositionBalance).2.2 (by rw [hsum]; norm_num)
  rw [h, hsum]
  norm_num [examplePositionBalance, BalanceInfo.make]

/-- C3 counterexample: a snapshot built with exchange rate `0` has
`totalValueInTokenX = 0`, not the token-X balance `5` alone. -/
theorem totalValueInTokenX_zero_rate_counterexample :
    (BalanceInfo.make 5 7 0 0).totalValueInTokenX = 0 ∧
    (BalanceInfo.make 5 7 0 0).totalValueInTokenX ≠ (BalanceInfo.make 5 7 0 0).tokenXBalance := by
  constructor
  · norm_num [BalanceInfo.make]
  · norm_num [BalanceInfo.make]

/-- C3 (amended): a constructed snapshot satisfies
`totalValueInTokenY = rate * x + y`; `totalValueInTokenX = x + y / rate` when
the rate is nonzero, and `totalValueInTokenX = 0` (a defined value, not an
error) in the degenerate zero-rate case. -/
theorem balanceInfo_construction_law (x y r : ℚ) (t : ℤ) :
    (BalanceInfo.make x y r t).totalValueInTokenY = r * x + y ∧
    (r ≠ 0 → (BalanceInfo.make x y r t).totalValueInTokenX = x + y / r) ∧
    (r = 0 → (BalanceInfo.make x y r t).totalValueInTokenX = 0) := by
  refine ⟨rfl, ?_, ?_⟩
  · intro h
    simp [BalanceInfo.make, h, add_comm]
  · intro h
    simp [BalanceInfo.make, h]

/-- C3 witness: a concrete snapshot with a nonzero rate. -/
theorem balanceInfo_construction_law_witness :
    (BalanceInfo.make 3 8 2 0).totalValueInTokenY = 14 ∧
    (BalanceInfo.make 3 8 2 0).totalValueInTokenX = 7 := by
  constructor
  · rw [(balanceInfo_construction_law 3 8 2 0).1]
    norm_num
  · rw [(balanceInfo_construction_law 3 8 2 0).2.1 (by norm_num)]
    norm_num

/-- C4: `getPriceFromBinId` computes exactly
`(1 + binStep/10000) ^ binId * 10 ^ (tokenXDecimal - tokenYDecimal)`, and in
particular gives exactly `1000` for binStep 10, bin id 0, and decimals 9 and
6. -/
theorem getPriceFromBinId_formula :
    (∀ (binId : ℤ) (binStep : ℕ) (dX dY : ℤ),
      getPriceFromBinId binId binStep dX dY
        = (1 + (binStep : ℚ) / 10000) ^ binId * (10 : ℚ) ^ (dX - dY)) ∧
    getPriceFromBinId 0 10 9 6 = 1000 := by
  constructor
  · intro binId binStep dX dY
    rfl
  · norm_num [getPriceFromBinId, BASIS_POINT_MAX]

/-- C5 counterexample: the on-chain normalizer `parseEvent` keeps the reported
positive magnitudes of a `RemoveLiquidity` event — the raw amounts 5 and 2
yield `tokenXChange = 5`, not the negated `-5`. -/
theorem parseEvent_remove_not_negated :
    (parseEvent exampleRawRemoveEvent).tokenXChange = 5 ∧
    (parseEvent exampleRawRemoveEvent).tokenYChange = 2 ∧
    (parseEvent exampleRawRemoveEvent).tokenXChange ≠ -5 := by
  refine ⟨rfl, rfl, ?_⟩
  norm_num [parseEvent, exampleRawRemoveEvent]

/-- C5 (amended): the Meteora indexer normalizer `buildEventsFromMeteoraOps`
emits `RemoveLiquidity` events whose changes are the negated raw withdrawal
magnitudes, and `AddLiquidity`/`ClaimFee` events whose changes equal the raw
magnitudes (hence non-negative whenever the source reports non-negative
magnitudes); the on-chain normalizer `parseEvent` instead keeps
`RemoveLiquidity` amounts exactly as the source reports them, without
negation. -/
theorem meteora_sign_convention (deposits withdrawals : List MeteoraDeposit)
    (claimFees : List MeteoraClaimFee) (fallbackActiveBin : ℤ) :
    (∀ e ∈ buildEventsFromMeteoraOps deposits withdrawals claimFees fallbackActiveBin,
      (e.operation = EventType.removeLiquidity →
        ∃ w ∈ withdrawals, e.tokenXChange = -(w.tokenXAmount.getD 0) ∧
          e.tokenYChange = -(w.tokenYAmount.getD 0)) ∧
      (e.operation = EventType.addLiquidity →
        ∃ d ∈ deposits, e.tokenXChange = d.tokenXAmount.getD 0 ∧
          e.tokenYChange = d.tokenYAmount.getD 0) ∧
      (e.operation = EventType.claimFee →
        ∃ c ∈ claimFees, e.tokenXChange = c.feeXAmount.getD 0 ∧
          e.tokenYChange = c.feeYAmount.getD 0)) ∧
    (∀ r : RawDecodedEvent, r.name = EventType.removeLiquidity →
      (parseEvent r).tokenXChange = r.amounts.1 ∧
      (parseEvent r).tokenYChange = r.amounts.2) := by
  constructor
  · intro e he
    rw [buildEventsFromMeteoraOps, List.mem_mergeSort] at he
    rcases List.mem_append.mp he with he | hc
    · rcases List.mem_append.mp he with hd | hw
      · rcases List.mem_map.mp hd with ⟨d, hdmem, rfl⟩
        refine ⟨?_, ?_, ?_⟩ <;> intro hop <;> simp_all
        exact ⟨d, hdmem, rfl, rfl⟩
      · rcases List.mem_map.mp hw with ⟨w, hwmem, rfl⟩
        refine ⟨?_, ?_, ?_⟩ <;> intro hop <;> simp_all
        exact ⟨w, hwmem, rfl, rfl⟩
    · rcases List.mem_map.mp hc with ⟨c, hcmem, rfl⟩
      refine ⟨?_, ?_, ?_⟩ <;> intro hop <;> simp_all
      exact ⟨c, hcmem, rfl, rfl⟩
  · intro r hr
    simp [parseEvent, hr]

/-- C5 witness: the raw withdrawal with magnitudes 5 and 2 yields the canonical
event with changes `-5` and `-2`. -/
theorem meteora_sign_convention_witness :
    ∃ w ∈ [exampleWithdrawal],
      exampleWithdrawEvent.tokenXChange = -(w.tokenXAmount.getD 0) ∧
      exampleWithdrawEvent.tokenYChange = -(w.tokenYAmount.getD 0) := by
  have h := (meteora_sign_convention [] [exampleWithdrawal] [] 3).1
  have hmem : exampleWithdrawEvent ∈ buildEventsFromMeteoraOps [] [exampleWithdrawal] [] 3 := by
    rw [buildEventsFromMeteoraOps, List.mem_mergeSort]
    simp [exampleWithdrawal, exampleWithdrawEvent]
  exact (h exampleWithdrawEvent hmem).1 rfl

/-- The ladder table is consistent with `intervalMinutes`. -/
theorem intervalMinutes_consistent :
    ∀ p ∈ availableIntervals, intervalMinutes p.2 = p.1 := by
  decide

/-- On a list whose first components ascend, `find?` with a lower-bound
predicate returns a member satisfying the bound that is minimal among all
members satisfying it, and returns `none` exactly when no member satisfies
it. -/
theorem find?_ladder_minimal (t : ℤ) (l : List (ℕ × TimeInterval))
    (hsorted : l.Pairwise (fun p q => p.1 ≤ q.1)) :
    (∀ p, l.find? (fun p => (p.1 : ℤ) ≥ t) = some p →
      p ∈ l ∧ (p.1 : ℤ) ≥ t ∧ ∀ q ∈ l, (q.1 : ℤ) ≥ t → p.1 ≤ q.1) ∧
    (l.find? (fun p => (p.1 : ℤ) ≥ t) = none → ∀ q ∈ l, ¬((q.1 : ℤ) ≥ t)) := by
  induction l with
  | nil => simp
  | cons hd tl ih =>
    rcases List.pairwise_cons.mp hsorted with ⟨hhd, htl⟩
    rcases ih htl with ⟨ihsome, ihnone⟩
    by_cases hp : (hd.1 : ℤ) ≥ t
    · constructor
      · intro p hfind
        rw [List.find?_cons_of_pos _ (by simpa using hp)] at hfind
        rcases Option.some.inj hfind with rfl
        refine ⟨List.mem_cons_self _ _, hp, ?_⟩
        intro q hq _
        rcases List.mem_cons.mp hq with rfl | hq
        · exact le_refl _
        · exact hhd q hq
      · intro hfind
        rw [List.find?_cons_of_pos _ (by simpa using hp)] at hfind
        exact absurd hfind (by simp)
    · constructor
      · intro p hfind
        rw [List.find?_cons_of_neg _ (by simpa using hp)] at hfind
        rcases ihsome p hfind with ⟨hmem, hge, hmin⟩
        refine ⟨List.mem_cons_of_mem _ hmem, hge, ?_⟩
        intro q hq hqt
        rcases List.mem_cons.mp hq with rfl | hq
        · exact absurd hqt hp
        · exact hmin q hq hqt
      · intro hfind
        rw [List.find?_cons_of_neg _ (by simpa using hp)] at hfind
        intro q hq
        rcases List.mem_cons.mp hq with rfl | hq
        · exact hp
        · exact ihnone hfind q hq

/-- C8 counterexample: for the one-minute span from time 0 to time 60 the code
returns the finest qualifying interval `1m`, not the coarsest qualifying
interval, which is `1M`. -/
theorem determineOptimalTimeInterval_not_coarsest :
    determineOptimalTimeInterval 0 60 = TimeInterval.i1m ∧
    coarsestQualifyingInterval 0 60 = TimeInterval.i1M ∧
    determineOptimalTimeInterval 0 60 ≠ coarsestQualifyingInterval 0 60 := by
  have ht : targetIntervalMinutes 0 60 = 1 := by
    simp only [targetIntervalMinutes, SECONDS_PER_MINUTE, MAX_DATA_POINTS]
    rw [show ((60 : ℤ) - 0 : ℤ) = 60 by norm_num]
    rw [Int.ceil_eq_iff]
    norm_num
  have h1 : determineOptimalTimeInterval 0 60 = TimeInterval.i1m := by
    unfold determineOptimalTimeInterval
    rw [ht]
    decide
  have h2 : coarsestQualifyingInterval 0 60 = TimeInterval.i1M := by
    unfold coarsestQualifyingInterval
    rw [ht]
    decide
  refine ⟨h1, h2, ?_⟩
  rw [h1, h2]
  decide

/-- C8 (amended): `determineOptimalTimeInterval` returns the finest
(shortest-duration) ladder interval whose duration in minutes reaches
`ceil(spanMinutes / 999)` — minimal among all qualifying ladder entries — and
returns `1M` when no ladder interval qualifies. -/
theorem determineOptimalTimeInterval_finest (fromBlockTime toBlockTime : ℤ) :
    ((∃ p ∈ availableIntervals,
        (p.1 : ℤ) ≥ targetIntervalMinutes fromBlockTime toBlockTime) →
      ((intervalMinutes (determineOptimalTimeInterval fromBlockTime toBlockTime) : ℤ)
          ≥ targetIntervalMinutes fromBlockTime toBlockTime ∧
        ∀ q ∈ availableIntervals,
          (q.1 : ℤ) ≥ targetIntervalMinutes fromBlockTime toBlockTime →
          intervalMinutes (determineOptimalTimeInterval fromBlockTime toBlockTime) ≤ q.1)) ∧
    ((∀ q ∈ availableIntervals,
        ¬((q.1 : ℤ) ≥ targetIntervalMinutes fromBlockTime toBlockTime)) →
      determineOptimalTimeInterval fromBlockTime toBlockTime = TimeInterval.i1M) := by
  have hsorted : availableIntervals.Pairwise (fun p q => p.1 ≤ q.1) := by decide
  have hlemma := find?_ladder_minimal (targetIntervalMinutes fromBlockTime toBlockTime)
    availableIntervals hsorted
  constructor
  · intro hex
    cases hfind : availableIntervals.find?
        (fun p => (p.1 : ℤ) ≥ targetIntervalMinutes fromBlockTime toBlockTime) with
    | none =>
      rcases hex with ⟨p, hpmem, hpge⟩
      exact absurd hpge (hlemma.2 hfind p hpmem)
    | some p =>
      rcases hlemma.1 p hfind with ⟨hmem, hge, hmin⟩
      have hres : determineOptimalTimeInterval fromBlockTime toBlockTime = p.2 := by
        unfold determineOptimalTimeInterval optimalFromTarget
        rw [hfind]
      rw [hres, intervalMinutes_consistent p hmem]
      exact ⟨hge, fun q hq hqt => hmin q hq hqt⟩
  · intro hnone
    cases hfind : availableIntervals.find?
        (fun p => (p.1 : ℤ) ≥ targetIntervalMinutes fromBlockTime toBlockTime) with
    | none =>
      unfold determineOptimalTimeInterval optimalFromTarget
      rw [hfind]
    | some p =>
      rcases hlemma.1 p hfind with ⟨hmem, hge, _⟩
      exact absurd hge (hnone p hmem)

/-- C8 witness: on the span 0..59940 (999 minutes, target 1 minute) the chosen
interval's duration reaches the target and is minimal among qualifying ladder
entries. -/
theorem determineOptimalTimeInterval_finest_witness :
    (intervalMinutes (determineOptimalTimeInterval 0 59940) : ℤ)
        ≥ targetIntervalMinutes 0 59940 ∧
    ∀ q ∈ availableIntervals, (q.1 : ℤ) ≥ targetIntervalMinutes 0 59940 →
      intervalMinutes (determineOptimalTimeInterval 0 59940) ≤ q.1 := by
  have ht : targetIntervalMinutes 0 59940 = 1 := by
    simp only [targetIntervalMinutes, SECONDS_PER_MINUTE, MAX_DATA_POINTS]
    rw [show ((59940 : ℤ) - 0 : ℤ) = 59940 by norm_num]
    rw [Int.ceil_eq_iff]
    norm_num
  exact (determineOptimalTimeInterval_finest 0 59940).1
    ⟨(1, TimeInterval.i1m), by decide, by rw [ht]; decide⟩

/-- The uniform-price fallback loop appends one snapshot per claim event. -/
theorem foldl_uniform_price (l : List EventInfo) (price : ℚ) (p : PositionBalanceInfo) :
    (l.foldl (fun acc event => updateBalanceWithEvent acc event price) p).balances
      = p.balances
        ++ l.map (fun e => BalanceInfo.make e.tokenXChange e.tokenYChange price e.blockTime) := by
  induction l generalizing p with
  | nil => simp
  | cons hd tl ih =>
    rw [List.foldl_cons, ih]
    simp [updateBalanceWithEvent, PositionBalanceInfo.add]

/-- C6: with no `ClaimFee` events among the inputs the claimed-fee bucket is
returned empty, whatever the historical fetch did; and whenever the
historical-series fetch throws, the function builds exactly one snapshot per
`ClaimFee` event, each priced uniformly with the current oracle spot price. -/
theorem calculateClaimedFees_fallback (events : List EventInfo) (price : ℚ)
    (mx my : String) (hist : Except Unit (List HistoricalPriceItem)) :
    (events.filter (fun tx => tx.operation = EventType.claimFee) = [] →
      (calculateClaimedFees events price mx my hist).balances = []) ∧
    (hist = .error () →
      (calculateClaimedFees events price mx my hist).balances
        = (events.filter (fun tx => tx.operation = EventType.claimFee)).map
            (fun e => BalanceInfo.make e.tokenXChange e.tokenYChange price e.blockTime)) := by
  constructor
  · intro h
    simp [calculateClaimedFees, h]
  · intro h
    subst h
    by_cases hempty : events.filter (fun tx => tx.operation = EventType.claimFee) = []
    · simp [calculateClaimedFees, hempty]
    · rw [calculateClaimedFees]
      rw [dif_neg hempty]
      rw [foldl_uniform_price]
      simp

/-- C6 witness: one claim event under a failing fetch yields exactly one
snapshot priced at the oracle price. -/
theorem calculateClaimedFees_fallback_witness :
    (calculateClaimedFees [⟨EventType.claimFee, 5, 1, 2, none⟩] 7 "x" "y"
        (Except.error ())).balances
      = [BalanceInfo.make 1 2 7 5] := by
  have h := (calculateClaimedFees_fallback [⟨EventType.claimFee, 5, 1, 2, none⟩] 7 "x" "y"
    (Except.error ())).2 rfl
  rw [h]
  rfl

/-- C7 counterexample: the rolled-up summary ROI at zero invested value is a
non-finite Decimal (rendered as unavailable), not the value `0`. -/
theorem renderSummaryROI_zero_invested_not_zero :
    renderSummaryROI ⟨0, 0, 0⟩ = none ∧ renderSummaryROI ⟨0, 0, 0⟩ ≠ some 0 := by
  constructor
  · simp [renderSummaryROI, dMul, dDiv, dSub, dAdd]
  · intro h
    simp [renderSummaryROI, dMul, dDiv, dSub, dAdd] at h

/-- C7 (amended): the per-position ROI `getROI` reports `0` when the invested
amount is exactly zero and the percentage formula otherwise; the rolled-up
summary ROI of `renderSummary` divides by `totalInvested` with no guard, so
at zero invested it is a non-finite Decimal (NaN or ±Infinity), not `0`, and
only for nonzero invested does it equal `netProfit / totalInvested * 100`. -/
theorem roi_zero_division (inv cur uncl w cl : ℚ) (m : MetricsResult) :
    (inv = 0 → getROI inv cur uncl w cl = 0) ∧
    (inv ≠ 0 → getROI inv cur uncl w cl = ((cur + uncl + w + cl) / inv - 1) * 100) ∧
    (m.totalInvested = 0 → renderSummaryROI m = none) ∧
    (m.totalInvested ≠ 0 → renderSummaryROI m
        = some ((m.currentValue + m.totalWithdrawn - m.totalInvested)
            / m.totalInvested * 100)) := by
  refine ⟨?_, ?_, ?_, ?_⟩
  · intro h
    simp [getROI, h]
  · intro h
    simp [getROI, h]
  · intro h
    simp [renderSummaryROI, dMul, dDiv, dSub, dAdd, h]
  · intro h
    simp [renderSummaryROI, dMul, dDiv, dSub, dAdd, h]

/-- C7 witness: a concrete guarded per-position ROI and a concrete unguarded
rolled-up ROI. -/
theorem roi_zero_division_witness :
    getROI 0 3 1 2 4 = 0 ∧ renderSummaryROI ⟨0, 3, 2⟩ = none := by
  constructor
  · exact (roi_zero_division 0 3 1 2 4 ⟨0, 3, 2⟩).1 rfl
  · exact (roi_zero_division 0 3 1 2 4 ⟨0, 3, 2⟩).2.2.1 rfl

/-- C9: attaching a conversion rate to a bucket's snapshots writes only the
dedicated reference-price field, and only on snapshots whose block time
equals the resolved timestamp; every snapshot keeps its position and its
balances, exchange rate, value totals and block time. -/
theorem applyPriceToBalances_frame (t : ℤ) (price : ℚ) (bs : List BalanceInfo)
    (i : ℕ) (b : BalanceInfo) (hb : bs[i]? = some b) :
    ∃ b2, (applyPriceToBalances t price bs)[i]? = some b2 ∧
      b2.tokenXBalance = b.tokenXBalance ∧
      b2.tokenYBalance = b.tokenYBalance ∧
      b2.exchangeRate = b.exchangeRate ∧
      b2.totalValueInTokenY = b.totalValueInTokenY ∧
      b2.totalValueInTokenX = b.totalValueInTokenX ∧
      b2.blockTime = b.blockTime ∧
      b2.tokenYSOLPrice = (if b.blockTime = t then price else b.tokenYSOLPrice) := by
  refine ⟨if b.blockTime = t then b.setTokenYSOLPrice price else b, ?_, ?_⟩
  · rw [applyPriceToBalances, List.getElem?_map, hb]
    rfl
  · by_cases h : b.blockTime = t
    · simp [h, BalanceInfo.setTokenYSOLPrice]
    · simp [h]

/-- C9 witness: a concrete snapshot at the matching timestamp keeps all core
fields and receives the rate. -/
theorem applyPriceToBalances_frame_witness :
    ∃ b2, (applyPriceToBalances 4 9 [BalanceInfo.make 1 2 3 4])[0]? = some b2 ∧
      b2.tokenXBalance = (BalanceInfo.make 1 2 3 4).tokenXBalance ∧
      b2.tokenYBalance = (BalanceInfo.make 1 2 3 4).tokenYBalance ∧
      b2.exchangeRate = (BalanceInfo.make 1 2 3 4).exchangeRate ∧
      b2.totalValueInTokenY = (BalanceInfo.make 1 2 3 4).totalValueInTokenY ∧
      b2.totalValueInTokenX = (BalanceInfo.make 1 2 3 4).totalValueInTokenX ∧
      b2.blockTime = (BalanceInfo.make 1 2 3 4).blockTime ∧
      b2.tokenYSOLPrice
        = (if (BalanceInfo.make 1 2 3 4).blockTime = 4 then (9 : ℚ)
            else (BalanceInfo.make 1 2 3 4).tokenYSOLPrice) :=
  applyPriceToBalances_frame 4 9 [BalanceInfo.make 1 2 3 4] 0 (BalanceInfo.make 1 2 3 4) rfl

/-- C10: `fetchPositionOperations` resolves every outcome to a value: a
rejected underlying fetch yields three empty operation lists, and any
individual response that is non-OK or whose JSON body is not an array yields
an empty list for that source. -/
theorem fetchPositionOperations_fallbacks (dX dY : ℕ)
    (responses : Except Unit
      (HttpResponse MeteoraDepositRaw × HttpResponse MeteoraDepositRaw ×
        HttpResponse MeteoraClaimFeeRaw)) :
    (∀ err, responses = .error err →
      fetchPositionOperations dX dY responses = ([], [], [])) ∧
    (∀ depRes witRes feeRes, responses = .ok (depRes, witRes, feeRes) →
      ((depRes.ok = false ∨ depRes.body = none) →
        (fetchPositionOperations dX dY responses).1 = []) ∧
      ((witRes.ok = false ∨ witRes.body = none) →
        (fetchPositionOperations dX dY responses).2.1 = []) ∧
      ((feeRes.ok = false ∨ feeRes.body = none) →
        (fetchPositionOperations dX dY responses).2.2 = [])) := by
  constructor
  · intro err h
    subst h
    rfl
  · intro depRes witRes feeRes h
    subst h
    refine ⟨?_, ?_, ?_⟩ <;>
      rintro (h | h) <;>
      simp [fetchPositionOperations, parseArray, h]

/-- C10 witness: a non-OK deposit response, a non-array withdrawal body, and a
failed overall fetch all surface as empty operation lists. -/
theorem fetchPositionOperations_fallbacks_witness :
    fetchPositionOperations 6 9 (Except.error ()) = ([], [], []) ∧
    (fetchPositionOperations 6 9
      (Except.ok (⟨false, none⟩, ⟨true, none⟩, ⟨true, some []⟩))).1 = [] ∧
    (fetchPositionOperations 6 9
      (Except.ok (⟨false, none⟩, ⟨true, none⟩, ⟨true, some []⟩))).2.1 = [] := by
  refine ⟨?_, ?_, ?_⟩
  · exact (fetchPositionOperations_fallbacks 6 9 (Except.error ())).1 () rfl
  · exact ((fetchPositionOperations_fallbacks 6 9
      (Except.ok (⟨false, none⟩, ⟨true, none⟩, ⟨true, some []⟩))).2
        ⟨false, none⟩ ⟨true, none⟩ ⟨true, some []⟩ rfl).1 (Or.inl rfl)
  · exact ((fetchPositionOperations_fallbacks 6 9
      (Except.ok (⟨false, none⟩, ⟨true, none⟩, ⟨true, some []⟩))).2
        ⟨false, none⟩ ⟨true, none⟩ ⟨true, some []⟩ rfl).2.1 (Or.inr rfl)

end LP4Fun
